import Mathlib

/-
Verification development for the Astro plugin (src/astro/main.py).

Shallow embedding conventions:
* UTC instants (Python `datetime` values) are modelled as `Int` seconds; comparing
  datetimes becomes integer comparison, `timedelta(minutes=m)` becomes `60 * m`,
  and `(a - b).total_seconds()` becomes `a - b` (timestamps are second-precision).
* The upstream response fields (after `Astro._convert`, lines 181-186, which maps
  epoch-zero / year-1970 timestamps to `None`) are modelled as `Option Int`:
  `none` is an absent boundary.
* `Astro._seconds_to_tomorrow()` (lines 188-192) depends on the local wall clock;
  it is passed in as an explicit parameter `secsToTomorrow` (always in 1..86400
  for the real clock; theorems that need positivity take it as a hypothesis).
* The body of `run` (lines 194-337) is split into `evaluate` (the per-cycle flag
  and sleep computation, lines 204-307) and `runCycle` (one iteration of the
  scheduler loop with actuation, lines 197-337).  Actuation calls
  (`webinterface.do_basic_action`) are recorded as a list of `ActuationCall`s.
* `run` is a single Python call containing a `while` loop, so its local variables
  survive from one iteration to the next.  `bright_beg`/`bright_end` are assigned
  only when both sunrise and sunset are present (lines 211-213), yet line 230
  formats `bright_beg` unconditionally; on a cycle where they were never assigned
  this raises `UnboundLocalError`, which the generic handler (lines 332-335)
  catches.  The flag `brightBound` models "some earlier iteration assigned
  `bright_beg`", and `evaluate` returns `.error .unboundLocal` in the crashing
  case.
* A second exception path: the `elif now < sunrise` comparisons (lines 272,
  283, 294) run with `sunrise = None` whenever `has_sun` is false and a present
  twilight pair's window test is false.  In Python 2 a `datetime` raises
  `TypeError` when order-compared with `None` (its rich comparison refuses
  non-datetimes instead of falling back to the interpreter's default
  ordering), so such cycles abort into the same generic handler; `evaluate`
  returns `.error .typeError` there (see `twilight_cmp_error`).
-/

/-- The `results` object of the sunrise-sunset API response, after
`Astro._convert`: each field is `none` when the upstream reported an epoch-zero
timestamp (the boundary does not occur that day). -/
structure SunResults where
  sunrise : Option Int
  sunset : Option Int
  civil_twilight_begin : Option Int
  civil_twilight_end : Option Int
  nautical_twilight_begin : Option Int
  nautical_twilight_end : Option Int
  astronomical_twilight_begin : Option Int
  astronomical_twilight_end : Option Int
deriving DecidableEq, Repr

/-- A fetched response: the `status` string and the converted `results`
(lines 202-206 read `data['status']` and `data['results']`). -/
structure SunData where
  status : String
  results : SunResults
deriving DecidableEq, Repr

/-- The five computed flags, `bits = [bright, day, civil, nautical, astronomical]`
(line 205). -/
structure Bits where
  bright : Bool
  day : Bool
  civil : Bool
  nautical : Bool
  astronomical : Bool
deriving DecidableEq, Repr

/-- Result of one successful evaluation: the flags, the computed pre-guard sleep
duration in seconds, and the `info` label (lines 297-307, 326). -/
structure EvalOut where
  bits : Bits
  sleep : Int
  info : String
deriving DecidableEq, Repr

/-- The exceptions the evaluation block itself can raise in this model:
`unboundLocal` - line 230 formats `bright_beg` when it was never assigned (see
header comment); `typeError` - one of the `elif now < sunrise` comparisons at
lines 272, 283, 294 runs with `sunrise = None`: in Python 2 a `datetime`
refuses ordering comparisons against other types (`TypeError: can't compare
datetime.datetime to NoneType`). -/
inductive EvalError where
  | unboundLocal
  | typeError
deriving DecidableEq, Repr

/-- The `elif now < sunrise` tests at lines 272, 283, 294, where `sunrise` may
be `None` when `has_sun` is false.  Comparing a `datetime` with `None` raises
`TypeError` in Python 2; `evaluate` below routes every input that would reach
such a comparison into `.error .typeError` (see `twilight_cmp_error`), so the
`none` arm here is never semantically consulted - it only keeps the step
functions total. -/
def pyLtOpt (now : Int) (x : Option Int) : Bool :=
  match x with
  | some v => decide (now < v)
  | none => false

/-- Line 210: `has_sun = sunrise is not None and sunset is not None`. -/
def has_sun (r : SunResults) : Bool := r.sunrise.isSome && r.sunset.isSome

/-- Line 219: `has_civil = civil_beg is not None and civil_end is not None`. -/
def has_civil (r : SunResults) : Bool :=
  r.civil_twilight_begin.isSome && r.civil_twilight_end.isSome

/-- Line 222: `has_nautical`. -/
def has_nautical (r : SunResults) : Bool :=
  r.nautical_twilight_begin.isSome && r.nautical_twilight_end.isSome

/-- Line 225: `has_astronomical`. -/
def has_astronomical (r : SunResults) : Bool :=
  r.astronomical_twilight_begin.isSome && r.astronomical_twilight_end.isSome

/-- Lines 247-254: the `bright` flag and its sleep contribution.  Returns the
flag and the updated `sleep`. -/
def stepBright (sleep now bright_beg bright_end : Int) (has_bright : Bool) :
    Bool × Int :=
  if has_bright = false then (false, sleep)
  else
    let b := decide (bright_beg < now ∧ now < bright_end)
    if b then (b, min sleep (bright_end - now))
    else if now < bright_beg then (b, min sleep (bright_beg - now))
    else (b, sleep)

/-- Lines 255-262: the `day` flag (`bits[1]`) and its sleep contribution.  The
pattern match on the two options is `has_sun`. -/
def stepDay (sleep now : Int) (sunrise sunset : Option Int) : Bool × Int :=
  match sunrise, sunset with
  | some sr, some ss =>
      let b := decide (sr < now ∧ now < ss)
      if b then (b, min sleep (ss - now))
      else if now < sr then (b, min sleep (sr - now))
      else (b, sleep)
  | _, _ => (false, sleep)

/-- Lines 263-273 (and the structurally identical 274-284, 285-295): one
twilight flag.  When the pair is present the flag is `beg < now < end` and the
sleep is reduced by the pair's end (flag true) or begin (`elif now < sunrise`,
where `sunrise` may be `None`).  When absent, the flag falls back to
`not prevBit` if `fallbackOk` (e.g. `has_sun is True` for civil), else `false`. -/
def stepTwilight (sleep now : Int) (sunrise : Option Int) (prevBit fallbackOk : Bool)
    (beg fin : Option Int) : Bool × Int :=
  match beg, fin with
  | some tb, some te =>
      let b := decide (tb < now ∧ now < te)
      if b then (b, min sleep (te - now))
      else if pyLtOpt now sunrise then (b, min sleep (tb - now))
      else (b, sleep)
  | _, _ => if fallbackOk then (!prevBit, sleep) else (false, sleep)

/-- Lines 246-295 (the non-polar branch): the five flag computations threaded
through the `sleep` accumulator, which starts at `24 * 60 * 60` (line 204). -/
def pipeline (r : SunResults) (now bright_beg bright_end : Int)
    (has_bright : Bool) : Bits × Int :=
  let p0 := stepBright (24 * 60 * 60) now bright_beg bright_end has_bright
  let p1 := stepDay p0.2 now r.sunrise r.sunset
  let p2 := stepTwilight p1.2 now r.sunrise p1.1 (has_sun r)
      r.civil_twilight_begin r.civil_twilight_end
  let p3 := stepTwilight p2.2 now r.sunrise p2.1 (has_sun r || has_civil r)
      r.nautical_twilight_begin r.nautical_twilight_end
  let p4 := stepTwilight p3.2 now r.sunrise p3.1
      (has_sun r || has_civil r || has_nautical r)
      r.astronomical_twilight_begin r.astronomical_twilight_end
  (⟨p0.1, p1.1, p2.1, p3.1, p4.1⟩, p4.2)

/-- Lines 297-307: the `info` label, built bottom-up with the later (brighter)
assignments overwriting the earlier ones. -/
def label (b : Bits) : String :=
  let info := "night"
  let info := if b.astronomical then "astronomical twilight" else info
  let info := if b.nautical then "nautical twilight" else info
  let info := if b.civil then "civil twilight" else info
  let info := if b.day then "day" else info
  if b.bright then "day (bright)" else info

/-- Lines 238-307: the analysis of an OK response.  If no boundary pair is
present (line 238) the polar branch returns all-true flags, label
`"polar day"`, and `sleep = seconds_to_tomorrow` (lines 243-245); otherwise the
five-step pipeline runs and `sleep` is floored by `seconds_to_tomorrow`
(line 296). -/
def analyse (r : SunResults) (now secsToTomorrow bright_beg bright_end : Int)
    (has_bright : Bool) : EvalOut :=
  if (has_sun r || has_civil r || has_nautical r || has_astronomical r) = false then
    { bits := ⟨true, true, true, true, true⟩, sleep := secsToTomorrow,
      info := "polar day" }
  else
    let pr := pipeline r now bright_beg bright_end has_bright
    { bits := pr.1, sleep := min pr.2 secsToTomorrow, info := label pr.1 }

/-- Whether the analysis of lines 246-295 raises `TypeError`: `sunrise` is
`None` (so the `elif now < sunrise` comparisons of lines 272, 283, 294 would
compare a `datetime` with `None`) and at least one present twilight pair's
window test is false, so its `elif` is actually reached.  The exception fires
at the first such level; for the cycle's outcome only its existence matters. -/
def twilight_cmp_error (r : SunResults) (now : Int) : Bool :=
  r.sunrise.isNone &&
  ((match r.civil_twilight_begin, r.civil_twilight_end with
    | some tb, some te => !decide (tb < now ∧ now < te)
    | _, _ => false) ||
   (match r.nautical_twilight_begin, r.nautical_twilight_end with
    | some tb, some te => !decide (tb < now ∧ now < te)
    | _, _ => false) ||
   (match r.astronomical_twilight_begin, r.astronomical_twilight_end with
    | some tb, some te => !decide (tb < now ∧ now < te)
    | _, _ => false))

/-- Lines 204-307: one evaluation of an OK response at instant `now`.  When
`has_sun`, lines 211-214 assign `bright_beg = sunrise + offset`,
`bright_end = sunset - offset`, `has_bright = bright_beg < bright_end`.
Otherwise `bright_beg`/`bright_end` stay unassigned (line 216 only sets
`has_bright = False`), and the debug log at line 230 raises
`UnboundLocalError` unless an earlier loop iteration assigned them
(`brightBound`); in that stale-bound case the values are only logged, never
used, so dummies are passed to `analyse`. -/
def evaluate (r : SunResults) (now brightOffset secsToTomorrow : Int)
    (brightBound : Bool) : Except EvalError EvalOut :=
  match r.sunrise, r.sunset with
  | some sunrise, some sunset =>
      let bright_beg := sunrise + 60 * brightOffset
      let bright_end := sunset - 60 * brightOffset
      Except.ok (analyse r now secsToTomorrow bright_beg bright_end
        (decide (bright_beg < bright_end)))
  | _, _ =>
      if brightBound = false then Except.error EvalError.unboundLocal
      else if twilight_cmp_error r now then Except.error EvalError.typeError
      else Except.ok (analyse r now secsToTomorrow 0 0 false)

/-- The five bit ids, the bright offset (minutes) and the group action id from
the plugin configuration (`_read_config`, lines 85-99). -/
structure Config where
  bright_bit : Int
  horizon_bit : Int
  civil_bit : Int
  nautical_bit : Int
  astronomical_bit : Int
  bright_offset : Int
  group_action : Int
deriving DecidableEq, Repr

/-- An actuation call issued through `webinterface.do_basic_action`:
`setBit bit v` is action 237/238 on `bit` (line 315), `groupAction id` is
action 2 on `id` (line 320). -/
inductive ActuationCall where
  | setBit (bit : Int) (value : Bool)
  | groupAction (id : Int)
deriving DecidableEq, Repr

/-- The scheduler state the loop carries across iterations:
`self._previous_bits` (`none` models the `[None]*5` sentinel, lines 74, 196),
`self.sunrise_data` (`none` models the attribute never having been set), and
whether `bright_beg`/`bright_end` were assigned by an earlier iteration. -/
structure SchedState where
  previousBits : Option Bits
  cache : Option SunData
  brightBound : Bool
deriving DecidableEq, Repr

/-- Outcome of the `requests.get(...).json()` call in
`get_sun_data_or_cached` (lines 172-174): either it raises (network error,
bad JSON, ...) or it yields a parsed response. -/
inductive FetchOutcome where
  | failure
  | success (d : SunData)
deriving DecidableEq, Repr

/-- Lines 168-179: on success the response is stored in `self.sunrise_data`
and returned; on failure the exception is logged and the cached
`self.sunrise_data` is returned.  The first component is the returned value:
`none` models the `AttributeError` raised by `return self.sunrise_data` when
the attribute was never set (no successful fetch yet), which propagates to the
caller's generic handler.  The second component is the new cache. -/
def get_sun_data_or_cached (cache : Option SunData) (f : FetchOutcome) :
    Option SunData × Option SunData :=
  match f with
  | .success d => (some d, some d)
  | .failure => (cache, cache)

/-- Lines 308-317: one `setBit` actuation per configured (`> -1`) bit, in the
order of the literal dict `{0: bright, 1: horizon, 2: civil, 3: nautical,
4: astronomical}`. -/
def setBitActions (cfg : Config) (bits : Bits) : List ActuationCall :=
  (if cfg.bright_bit > -1 then [ActuationCall.setBit cfg.bright_bit bits.bright] else []) ++
  (if cfg.horizon_bit > -1 then [ActuationCall.setBit cfg.horizon_bit bits.day] else []) ++
  (if cfg.civil_bit > -1 then [ActuationCall.setBit cfg.civil_bit bits.civil] else []) ++
  (if cfg.nautical_bit > -1 then [ActuationCall.setBit cfg.nautical_bit bits.nautical] else []) ++
  (if cfg.astronomical_bit > -1 then [ActuationCall.setBit cfg.astronomical_bit bits.astronomical] else [])

/-- The resulting state of one loop iteration, the actuation calls it issued
(in order), and the argument of `self._sleep(time.time() + ...)`. -/
structure CycleOut where
  state : SchedState
  actions : List ActuationCall
  sleepDelta : Int
deriving DecidableEq, Repr

/-- Lines 197-337: one iteration of the `run` loop.
Not enabled: sleep 30 seconds (line 337).  Otherwise fetch (or reuse cached)
data; an exception out of the fetch-and-evaluate block (modelled outcomes:
`AttributeError` when the fetch fails with nothing cached, and the
`UnboundLocalError` of line 230) or a non-OK status leads to
`sleep = seconds_to_tomorrow` with no actuation (lines 328-335).  On a
successful evaluation every configured bit is set (309-317); if the flags
differ from `self._previous_bits`, the group action fires when configured and
`self._previous_bits` is updated (318-325); finally
`_sleep(time.time() + sleep + 5)` (line 327). -/
def runCycle (cfg : Config) (st : SchedState) (enabled : Bool) (f : FetchOutcome)
    (now secsToTomorrow : Int) : CycleOut :=
  if enabled = false then { state := st, actions := [], sleepDelta := 30 }
  else
    match get_sun_data_or_cached st.cache f with
    | (none, cache2) =>
        { state := { st with cache := cache2 }, actions := [],
          sleepDelta := secsToTomorrow + 5 }
    | (some d, cache2) =>
        if d.status = "OK" then
          match evaluate d.results now cfg.bright_offset secsToTomorrow st.brightBound with
          | .error _ =>
              { state := { st with cache := cache2 }, actions := [],
                sleepDelta := secsToTomorrow + 5 }
          | .ok out =>
              let bound2 := st.brightBound || has_sun d.results
              if st.previousBits = some out.bits then
                { state := { previousBits := st.previousBits, cache := cache2,
                             brightBound := bound2 },
                  actions := setBitActions cfg out.bits,
                  sleepDelta := out.sleep + 5 }
              else
                { state := { previousBits := some out.bits, cache := cache2,
                             brightBound := bound2 },
                  actions := setBitActions cfg out.bits ++
                    (if cfg.group_action = -1 then []
                     else [ActuationCall.groupAction cfg.group_action]),
                  sleepDelta := out.sleep + 5 }
        else
          { state := { st with cache := cache2 }, actions := [],
            sleepDelta := secsToTomorrow + 5 }

theorem stepBright_fst (sleep now bb be : Int) (hb : Bool) :
    (stepBright sleep now bb be hb).1 = (hb && decide (bb < now ∧ now < be)) := by
  cases hb <;> simp only [stepBright] <;> split_ifs <;> simp_all

theorem stepDay_fst_some (sleep now sr ss : Int) :
    (stepDay sleep now (some sr) (some ss)).1 = decide (sr < now ∧ now < ss) := by
  simp only [stepDay]
  split_ifs <;> simp_all

theorem stepDay_fst_none (sleep now : Int) (o1 o2 : Option Int)
    (h : o1 = none ∨ o2 = none) :
    (stepDay sleep now o1 o2).1 = false := by
  rcases o1 with _ | sr <;> rcases o2 with _ | ss <;> simp [stepDay] at h ⊢

theorem stepTwilight_fst_some (sleep now : Int) (sro : Option Int) (pb fb : Bool)
    (tb te : Int) :
    (stepTwilight sleep now sro pb fb (some tb) (some te)).1 =
      decide (tb < now ∧ now < te) := by
  simp only [stepTwilight]
  split_ifs <;> simp_all

theorem stepTwilight_fst_none (sleep now : Int) (sro : Option Int) (pb fb : Bool)
    (tb te : Option Int) (h : tb = none ∨ te = none) :
    (stepTwilight sleep now sro pb fb tb te).1 = (fb && !pb) := by
  rcases tb with _ | x <;> rcases te with _ | y <;>
    simp [stepTwilight] at h ⊢ <;> cases fb <;> simp

theorem stepBright_snd_le (sleep now bb be : Int) (hb : Bool) :
    (stepBright sleep now bb be hb).2 ≤ sleep := by
  simp only [stepBright]
  split_ifs <;> simp [min_le_left]

theorem stepDay_snd_le (sleep now : Int) (o1 o2 : Option Int) :
    (stepDay sleep now o1 o2).2 ≤ sleep := by
  rcases o1 with _ | sr <;> rcases o2 with _ | ss <;> simp only [stepDay] <;>
    (try split_ifs) <;> simp [min_le_left]

theorem stepTwilight_snd_le (sleep now : Int) (sro : Option Int) (pb fb : Bool)
    (tb te : Option Int) :
    (stepTwilight sleep now sro pb fb tb te).2 ≤ sleep := by
  rcases tb with _ | x <;> rcases te with _ | y <;> simp only [stepTwilight] <;>
    (try split_ifs) <;> simp [min_le_left]

theorem stepBright_snd_le_end (sleep now bb be : Int) (h1 : bb < now) (h2 : now < be) :
    (stepBright sleep now bb be true).2 ≤ be - now := by
  simp [stepBright, h1, h2, min_le_right]

theorem stepBright_snd_le_beg (sleep now bb be : Int) (h : now < bb) :
    (stepBright sleep now bb be true).2 ≤ bb - now := by
  have h2 : ¬(bb < now) := by omega
  simp [stepBright, h2, h, min_le_right]

theorem stepDay_snd_le_end (sleep now sr ss : Int) (h1 : sr < now) (h2 : now < ss) :
    (stepDay sleep now (some sr) (some ss)).2 ≤ ss - now := by
  simp [stepDay, h1, h2, min_le_right]

theorem stepDay_snd_le_beg (sleep now sr ss : Int) (h : now < sr) :
    (stepDay sleep now (some sr) (some ss)).2 ≤ sr - now := by
  have h2 : ¬(sr < now) := by omega
  simp [stepDay, h2, h, min_le_right]

theorem stepTwilight_snd_le_end (sleep now : Int) (sro : Option Int) (pb fb : Bool)
    (tb te : Int) (h1 : tb < now) (h2 : now < te) :
    (stepTwilight sleep now sro pb fb (some tb) (some te)).2 ≤ te - now := by
  simp [stepTwilight, h1, h2, min_le_right]

theorem stepTwilight_snd_le_beg (sleep now sr : Int) (pb fb : Bool) (tb te : Int)
    (hflag : ¬(tb < now ∧ now < te)) (hsr : now < sr) :
    (stepTwilight sleep now (some sr) pb fb (some tb) (some te)).2 ≤ tb - now := by
  simp [stepTwilight, pyLtOpt, hflag, hsr, min_le_right]

theorem stepBright_snd_nonneg (sleep now bb be : Int) (hb : Bool) (hs : 0 ≤ sleep) :
    0 ≤ (stepBright sleep now bb be hb).2 := by
  simp only [stepBright]
  split_ifs <;> simp_all <;> omega

theorem stepDay_snd_nonneg (sleep now : Int) (o1 o2 : Option Int) (hs : 0 ≤ sleep) :
    0 ≤ (stepDay sleep now o1 o2).2 := by
  rcases o1 with _ | sr <;> rcases o2 with _ | ss <;> simp only [stepDay] <;>
    (try split_ifs) <;> simp_all <;> omega

theorem stepTwilight_snd_nonneg (sleep now : Int) (sro : Option Int) (pb fb : Bool)
    (tb te : Option Int) (hs : 0 ≤ sleep)
    (hbeg : ∀ x y, tb = some x → te = some y → pyLtOpt now sro = true →
      ¬(x < now ∧ now < y) → 0 ≤ x - now) :
    0 ≤ (stepTwilight sleep now sro pb fb tb te).2 := by
  rcases tb with _ | x <;> rcases te with _ | y
  · simp only [stepTwilight]; split_ifs <;> simp_all
  · simp only [stepTwilight]; split_ifs <;> simp_all
  · simp only [stepTwilight]; split_ifs <;> simp_all
  · simp only [stepTwilight]
    split_ifs with h1 h2
    · simp only [decide_eq_true_eq] at h1
      simp only []
      omega
    · have := hbeg x y rfl rfl h2 (by simpa using h1)
      simp only []
      omega
    · simpa using hs

theorem pipeline_bright (r : SunResults) (now bb be : Int) (hb : Bool) :
    (pipeline r now bb be hb).1.bright = (hb && decide (bb < now ∧ now < be)) :=
  stepBright_fst _ _ _ _ _

theorem pipeline_day_some (r : SunResults) (now bb be : Int) (hb : Bool) (sr ss : Int)
    (hsr : r.sunrise = some sr) (hss : r.sunset = some ss) :
    (pipeline r now bb be hb).1.day = decide (sr < now ∧ now < ss) := by
  show (stepDay _ now r.sunrise r.sunset).1 = _
  rw [hsr, hss, stepDay_fst_some]

theorem pipeline_day_none (r : SunResults) (now bb be : Int) (hb : Bool)
    (h : r.sunrise = none ∨ r.sunset = none) :
    (pipeline r now bb be hb).1.day = false := by
  show (stepDay _ now r.sunrise r.sunset).1 = _
  exact stepDay_fst_none _ _ _ _ h

theorem pipeline_civil_some (r : SunResults) (now bb be : Int) (hb : Bool) (x y : Int)
    (hx : r.civil_twilight_begin = some x) (hy : r.civil_twilight_end = some y) :
    (pipeline r now bb be hb).1.civil = decide (x < now ∧ now < y) := by
  show (stepTwilight _ now r.sunrise _ _
    r.civil_twilight_begin r.civil_twilight_end).1 = _
  rw [hx, hy, stepTwilight_fst_some]

theorem pipeline_civil_none (r : SunResults) (now bb be : Int) (hb : Bool)
    (h : r.civil_twilight_begin = none ∨ r.civil_twilight_end = none) :
    (pipeline r now bb be hb).1.civil =
      (has_sun r && !(pipeline r now bb be hb).1.day) := by
  show (stepTwilight _ now r.sunrise ((pipeline r now bb be hb).1.day) (has_sun r)
    r.civil_twilight_begin r.civil_twilight_end).1 = _
  exact stepTwilight_fst_none _ _ _ _ _ _ _ h

theorem pipeline_nautical_some (r : SunResults) (now bb be : Int) (hb : Bool) (x y : Int)
    (hx : r.nautical_twilight_begin = some x) (hy : r.nautical_twilight_end = some y) :
    (pipeline r now bb be hb).1.nautical = decide (x < now ∧ now < y) := by
  show (stepTwilight _ now r.sunrise _ _
    r.nautical_twilight_begin r.nautical_twilight_end).1 = _
  rw [hx, hy, stepTwilight_fst_some]

theorem pipeline_nautical_none (r : SunResults) (now bb be : Int) (hb : Bool)
    (h : r.nautical_twilight_begin = none ∨ r.nautical_twilight_end = none) :
    (pipeline r now bb be hb).1.nautical =
      ((has_sun r || has_civil r) && !(pipeline r now bb be hb).1.civil) := by
  show (stepTwilight _ now r.sunrise ((pipeline r now bb be hb).1.civil)
    (has_sun r || has_civil r)
    r.nautical_twilight_begin r.nautical_twilight_end).1 = _
  exact stepTwilight_fst_none _ _ _ _ _ _ _ h

theorem pipeline_astronomical_some (r : SunResults) (now bb be : Int) (hb : Bool)
    (x y : Int)
    (hx : r.astronomical_twilight_begin = some x)
    (hy : r.astronomical_twilight_end = some y) :
    (pipeline r now bb be hb).1.astronomical = decide (x < now ∧ now < y) := by
  show (stepTwilight _ now r.sunrise _ _
    r.astronomical_twilight_begin r.astronomical_twilight_end).1 = _
  rw [hx, hy, stepTwilight_fst_some]

theorem pipeline_astronomical_none (r : SunResults) (now bb be : Int) (hb : Bool)
    (h : r.astronomical_twilight_begin = none ∨ r.astronomical_twilight_end = none) :
    (pipeline r now bb be hb).1.astronomical =
      ((has_sun r || has_civil r || has_nautical r) &&
        !(pipeline r now bb be hb).1.nautical) := by
  show (stepTwilight _ now r.sunrise ((pipeline r now bb be hb).1.nautical)
    (has_sun r || has_civil r || has_nautical r)
    r.astronomical_twilight_begin r.astronomical_twilight_end).1 = _
  exact stepTwilight_fst_none _ _ _ _ _ _ _ h

theorem analyse_nonpolar (r : SunResults) (now stt bb be : Int) (hb : Bool)
    (hnp : (has_sun r || has_civil r || has_nautical r || has_astronomical r) = true) :
    analyse r now stt bb be hb =
      { bits := (pipeline r now bb be hb).1,
        sleep := min (pipeline r now bb be hb).2 stt,
        info := label (pipeline r now bb be hb).1 } := by
  simp [analyse, hnp]

theorem analyse_polar (r : SunResults) (now stt bb be : Int) (hb : Bool)
    (hnp : (has_sun r || has_civil r || has_nautical r || has_astronomical r) = false) :
    analyse r now stt bb be hb = ⟨⟨true, true, true, true, true⟩, stt, "polar day"⟩ := by
  simp [analyse, hnp]

theorem evaluate_some (r : SunResults) (now off stt : Int) (bb : Bool) (sr ss : Int)
    (hsr : r.sunrise = some sr) (hss : r.sunset = some ss) :
    evaluate r now off stt bb =
      Except.ok (analyse r now stt (sr + 60 * off) (ss - 60 * off)
        (decide (sr + 60 * off < ss - 60 * off))) := by
  simp [evaluate, hsr, hss]

theorem evaluate_absent (r : SunResults) (now off stt : Int) (bb : Bool)
    (h : r.sunrise = none ∨ r.sunset = none) :
    evaluate r now off stt bb =
      (if bb = false then Except.error EvalError.unboundLocal
       else if twilight_cmp_error r now then Except.error EvalError.typeError
       else Except.ok (analyse r now stt 0 0 false)) := by
  rcases h with h | h
  · rcases hss : r.sunset with _ | ss <;> simp [evaluate, h, hss]
  · rcases hsr : r.sunrise with _ | sr <;> simp [evaluate, h, hsr]

theorem evaluate_ok_cases (r : SunResults) (now off stt : Int) (bb : Bool)
    (out : EvalOut) (he : evaluate r now off stt bb = Except.ok out) :
    (∃ sr ss, r.sunrise = some sr ∧ r.sunset = some ss ∧
      out = analyse r now stt (sr + 60 * off) (ss - 60 * off)
        (decide (sr + 60 * off < ss - 60 * off))) ∨
    ((r.sunrise = none ∨ r.sunset = none) ∧ bb = true ∧
      out = analyse r now stt 0 0 false) := by
  rcases hsr : r.sunrise with _ | sr
  · right
    rw [evaluate_absent r now off stt bb (Or.inl hsr)] at he
    cases bb
    · simp at he
    · by_cases ht : twilight_cmp_error r now = true
      · simp [ht] at he
      · simp [ht] at he
        exact ⟨Or.inl rfl, rfl, he.symm⟩
  · rcases hss : r.sunset with _ | ss
    · right
      rw [evaluate_absent r now off stt bb (Or.inr hss)] at he
      cases bb
      · simp at he
      · by_cases ht : twilight_cmp_error r now = true
        · simp [ht] at he
        · simp [ht] at he
          exact ⟨Or.inr rfl, rfl, he.symm⟩
    · left
      rw [evaluate_some r now off stt bb sr ss hsr hss] at he
      simp at he
      exact ⟨sr, ss, rfl, rfl, he.symm⟩

/-- Monotone nesting of the five flags: bright implies day implies civil
implies nautical implies astronomical. -/
def Bits.nested (b : Bits) : Prop :=
  (b.bright = true → b.day = true) ∧ (b.day = true → b.civil = true) ∧
  (b.civil = true → b.nautical = true) ∧ (b.nautical = true → b.astronomical = true)

instance (b : Bits) : Decidable b.nested := by
  unfold Bits.nested
  infer_instance

theorem analyse_nested_core (r : SunResults) (now stt bb be : Int) (hb : Bool)
    (hbw : hb = true → ∃ sr ss, r.sunrise = some sr ∧ r.sunset = some ss ∧
      sr ≤ bb ∧ be ≤ ss)
    (hm1 : has_sun r = true → has_civil r = true)
    (hm2 : has_civil r = true → has_nautical r = true)
    (hm3 : has_nautical r = true → has_astronomical r = true)
    (hn1 : ∀ sr ss x y, r.sunrise = some sr → r.sunset = some ss →
      r.civil_twilight_begin = some x → r.civil_twilight_end = some y →
      x ≤ sr ∧ ss ≤ y)
    (hn2 : ∀ x y u v, r.civil_twilight_begin = some x → r.civil_twilight_end = some y →
      r.nautical_twilight_begin = some u → r.nautical_twilight_end = some v →
      u ≤ x ∧ y ≤ v)
    (hn3 : ∀ x y u v, r.nautical_twilight_begin = some x →
      r.nautical_twilight_end = some y →
      r.astronomical_twilight_begin = some u → r.astronomical_twilight_end = some v →
      u ≤ x ∧ y ≤ v) :
    (analyse r now stt bb be hb).bits.nested := by
  by_cases hnp : (has_sun r || has_civil r || has_nautical r || has_astronomical r) = true
  case neg =>
    rw [analyse_polar r now stt bb be hb (by simpa using hnp)]
    simp [Bits.nested]
  case pos =>
    rw [analyse_nonpolar r now stt bb be hb hnp]
    refine ⟨?_, ?_, ?_, ?_⟩
    · intro hbr
      rw [pipeline_bright] at hbr
      simp only [Bool.and_eq_true, decide_eq_true_eq] at hbr
      obtain ⟨sr, ss, hsr, hss, hsb, hbe⟩ := hbw hbr.1
      rw [pipeline_day_some r now bb be hb sr ss hsr hss]
      simp only [decide_eq_true_eq]
      omega
    · intro hday
      rcases hsr : r.sunrise with _ | sr
      · rw [pipeline_day_none r now bb be hb (Or.inl hsr)] at hday
        simp at hday
      rcases hss : r.sunset with _ | ss
      · rw [pipeline_day_none r now bb be hb (Or.inr hss)] at hday
        simp at hday
      rw [pipeline_day_some r now bb be hb sr ss hsr hss] at hday
      simp only [decide_eq_true_eq] at hday
      have hsun : has_sun r = true := by simp [has_sun, hsr, hss]
      have hciv := hm1 hsun
      rcases hx : r.civil_twilight_begin with _ | x
      · simp [has_civil, hx] at hciv
      rcases hy : r.civil_twilight_end with _ | y
      · simp [has_civil, hy] at hciv
      obtain ⟨h1, h2⟩ := hn1 sr ss x y hsr hss hx hy
      rw [pipeline_civil_some r now bb be hb x y hx hy]
      simp only [decide_eq_true_eq]
      omega
    · intro hciv
      rcases hx : r.civil_twilight_begin with _ | x
      · rw [pipeline_civil_none r now bb be hb (Or.inl hx)] at hciv
        simp only [Bool.and_eq_true] at hciv
        have := hm1 hciv.1
        simp [has_civil, hx] at this
      rcases hy : r.civil_twilight_end with _ | y
      · rw [pipeline_civil_none r now bb be hb (Or.inr hy)] at hciv
        simp only [Bool.and_eq_true] at hciv
        have := hm1 hciv.1
        simp [has_civil, hy] at this
      rw [pipeline_civil_some r now bb be hb x y hx hy] at hciv
      simp only [decide_eq_true_eq] at hciv
      have hciv2 : has_civil r = true := by simp [has_civil, hx, hy]
      have hnau := hm2 hciv2
      rcases hu : r.nautical_twilight_begin with _ | u
      · simp [has_nautical, hu] at hnau
      rcases hv : r.nautical_twilight_end with _ | v
      · simp [has_nautical, hv] at hnau
      obtain ⟨h1, h2⟩ := hn2 x y u v hx hy hu hv
      rw [pipeline_nautical_some r now bb be hb u v hu hv]
      simp only [decide_eq_true_eq]
      omega
    · intro hnau
      rcases hu : r.nautical_twilight_begin with _ | u
      · rw [pipeline_nautical_none r now bb be hb (Or.inl hu)] at hnau
        simp only [Bool.and_eq_true, Bool.or_eq_true] at hnau
        have hnaut : has_nautical r = true := by
          rcases hnau.1 with h | h
          · exact hm2 (hm1 h)
          · exact hm2 h
        simp [has_nautical, hu] at hnaut
      rcases hv : r.nautical_twilight_end with _ | v
      · rw [pipeline_nautical_none r now bb be hb (Or.inr hv)] at hnau
        simp only [Bool.and_eq_true, Bool.or_eq_true] at hnau
        have hnaut : has_nautical r = true := by
          rcases hnau.1 with h | h
          · exact hm2 (hm1 h)
          · exact hm2 h
        simp [has_nautical, hv] at hnaut
      rw [pipeline_nautical_some r now bb be hb u v hu hv] at hnau
      simp only [decide_eq_true_eq] at hnau
      have hnaut2 : has_nautical r = true := by simp [has_nautical, hu, hv]
      have hast := hm3 hnaut2
      rcases hp : r.astronomical_twilight_begin with _ | p
      · simp [has_astronomical, hp] at hast
      rcases hq : r.astronomical_twilight_end with _ | q
      · simp [has_astronomical, hq] at hast
      obtain ⟨h1, h2⟩ := hn3 u v p q hu hv hp hq
      rw [pipeline_astronomical_some r now bb be hb p q hp hq]
      simp only [decide_eq_true_eq]
      omega

/-- C1 (amended): the flags produced by a successful evaluation satisfy the
monotone nesting bright implies day implies civil implies nautical implies
astronomical, provided boundary presence is monotone (sun present implies the
civil pair is present, civil implies nautical, nautical implies astronomical),
each present boundary window contains the narrower present windows, and the
bright offset is non-negative.  Without these extra hypotheses the nesting can
fail (see the counterexample). -/
theorem c1_amended_monotone_nesting (r : SunResults) (now off stt : Int) (bb : Bool)
    (hoff : 0 ≤ off)
    (hm1 : has_sun r = true → has_civil r = true)
    (hm2 : has_civil r = true → has_nautical r = true)
    (hm3 : has_nautical r = true → has_astronomical r = true)
    (hn1 : ∀ sr ss x y, r.sunrise = some sr → r.sunset = some ss →
      r.civil_twilight_begin = some x → r.civil_twilight_end = some y →
      x ≤ sr ∧ ss ≤ y)
    (hn2 : ∀ x y u v, r.civil_twilight_begin = some x → r.civil_twilight_end = some y →
      r.nautical_twilight_begin = some u → r.nautical_twilight_end = some v →
      u ≤ x ∧ y ≤ v)
    (hn3 : ∀ x y u v, r.nautical_twilight_begin = some x →
      r.nautical_twilight_end = some y →
      r.astronomical_twilight_begin = some u → r.astronomical_twilight_end = some v →
      u ≤ x ∧ y ≤ v)
    (out : EvalOut) (he : evaluate r now off stt bb = Except.ok out) :
    out.bits.nested := by
  rcases evaluate_ok_cases r now off stt bb out he with
    ⟨sr, ss, hsr, hss, rfl⟩ | ⟨habs, hbb, rfl⟩
  · exact analyse_nested_core r now stt _ _ _
      (fun _ => ⟨sr, ss, hsr, hss, by omega, by omega⟩) hm1 hm2 hm3 hn1 hn2 hn3
  · exact analyse_nested_core r now stt 0 0 false (by simp) hm1 hm2 hm3 hn1 hn2 hn3

/-- C1 fails as stated: on a successful cycle with sunrise/sunset present but
all three twilight pairs absent (as the data model allows), the fallback rule
of lines 263-295 yields, during the day, the flag vector
`[bright := false, day := true, civil := false, nautical := true,
astronomical := false]`, which violates both `day implies civil` and
`nautical implies astronomical`. -/
theorem c1_counterexample :
    evaluate ⟨some 0, some 100, none, none, none, none, none, none⟩ 50 60 500 true =
      Except.ok ⟨⟨false, true, false, true, false⟩, 50, "day"⟩ ∧
    ¬ (Bits.nested ⟨false, true, false, true, false⟩) := by
  refine ⟨by rfl, by decide⟩

theorem c1_amended_witness :
    evaluate ⟨some 10000, some 60000, some 9000, some 61000, some 8000, some 62000,
        some 7000, some 63000⟩ 30000 10 50000 true =
      Except.ok ⟨⟨true, true, true, true, true⟩, 29400, "day (bright)"⟩ ∧
    Bits.nested ⟨true, true, true, true, true⟩ := by
  constructor
  · rfl
  · exact c1_amended_monotone_nesting
      ⟨some 10000, some 60000, some 9000, some 61000, some 8000, some 62000,
        some 7000, some 63000⟩ 30000 10 50000 true (by omega)
      (fun _ => by decide) (fun _ => by decide) (fun _ => by decide)
      (fun sr ss x y h1 h2 h3 h4 => by
        simp only [Option.some.injEq] at h1 h2 h3 h4
        omega)
      (fun x y u v h1 h2 h3 h4 => by
        simp only [Option.some.injEq] at h1 h2 h3 h4
        omega)
      (fun x y u v h1 h2 h3 h4 => by
        simp only [Option.some.injEq] at h1 h2 h3 h4
        omega)
      ⟨⟨true, true, true, true, true⟩, 29400, "day (bright)"⟩ (by rfl)

/-- C2: for any instant, if the civil twilight pair is absent (epoch-zero
upstream) while sunrise and sunset are present, the evaluated civil flag is the
negation of the evaluated day flag (lines 263-267). -/
theorem c2_civil_fallback (r : SunResults) (now off stt : Int) (bb : Bool) (sr ss : Int)
    (hsr : r.sunrise = some sr) (hss : r.sunset = some ss)
    (hc : r.civil_twilight_begin = none ∨ r.civil_twilight_end = none)
    (out : EvalOut) (he : evaluate r now off stt bb = Except.ok out) :
    out.bits.civil = !out.bits.day := by
  rw [evaluate_some r now off stt bb sr ss hsr hss] at he
  simp only [Except.ok.injEq] at he
  subst he
  have hsun : has_sun r = true := by simp [has_sun, hsr, hss]
  rw [analyse_nonpolar _ _ _ _ _ _ (by simp [hsun])]
  simp only []
  rw [pipeline_civil_none _ _ _ _ _ hc, hsun]
  simp

theorem c2_civil_fallback_witness :
    evaluate ⟨some 100, some 200, none, none, none, none, none, none⟩ 150 0 1000 true =
      Except.ok ⟨⟨true, true, false, true, false⟩, 50, "day (bright)"⟩ ∧
    (false : Bool) = !true := by
  constructor
  · rfl
  · exact c2_civil_fallback ⟨some 100, some 200, none, none, none, none, none, none⟩
      150 0 1000 true 100 200 rfl rfl (Or.inl rfl)
      ⟨⟨true, true, false, true, false⟩, 50, "day (bright)"⟩ rfl

/-- C6: when sunrise and sunset are present and
`sunrise + offset ≥ sunset - offset` (the inward-shifted bright window is
empty, lines 211-216), the bright flag is false regardless of `now`
(lines 247-248). -/
theorem c6_bright_window_empty (r : SunResults) (now off stt : Int) (bb : Bool)
    (sr ss : Int) (hsr : r.sunrise = some sr) (hss : r.sunset = some ss)
    (hempty : ss - 60 * off ≤ sr + 60 * off)
    (out : EvalOut) (he : evaluate r now off stt bb = Except.ok out) :
    out.bits.bright = false := by
  rw [evaluate_some r now off stt bb sr ss hsr hss] at he
  simp only [Except.ok.injEq] at he
  subst he
  have hsun : has_sun r = true := by simp [has_sun, hsr, hss]
  rw [analyse_nonpolar _ _ _ _ _ _ (by simp [hsun])]
  simp only []
  rw [pipeline_bright]
  have hne : ¬ (sr + 60 * off < ss - 60 * off) := by omega
  simp [hne]

theorem c6_witness :
    evaluate ⟨some 100, some 200, none, none, none, none, none, none⟩ 150 60 777 true =
      Except.ok ⟨⟨false, true, false, true, false⟩, 50, "day"⟩ ∧
    Bits.bright ⟨false, true, false, true, false⟩ = false := by
  constructor
  · rfl
  · exact c6_bright_window_empty
      ⟨some 100, some 200, none, none, none, none, none, none⟩ 150 60 777 true
      100 200 rfl rfl (by omega)
      ⟨⟨false, true, false, true, false⟩, 50, "day"⟩ rfl

/-- C4 (code bug): with every boundary pair absent, the intended polar-day
branch (lines 238-245) is unreachable on the first evaluation cycle: with
`has_sun` false, `bright_beg` is never assigned (lines 215-216), so the debug
log at line 230 raises `UnboundLocalError` and the generic handler (332-335)
sleeps until the next local day without computing any flags.  Only on a later
cycle, when a previous iteration left `bright_beg` bound, does the code return
the claimed all-true flags, label "polar day" and seconds-to-midnight sleep
(second conjunct). -/
theorem c4_polar_day_first_cycle :
    evaluate ⟨none, none, none, none, none, none, none, none⟩ 12345 60 54321 false =
      Except.error EvalError.unboundLocal ∧
    evaluate ⟨none, none, none, none, none, none, none, none⟩ 12345 60 54321 true =
      Except.ok ⟨⟨true, true, true, true, true⟩, 54321, "polar day"⟩ := ⟨rfl, rfl⟩

/-- C9: when sunrise or sunset is absent while at least one twilight pair is
present, and no earlier iteration assigned `bright_beg`, the evaluation aborts
with `UnboundLocalError` at the logging line 230; the scheduler's generic
handler (lines 332-335) then sleeps until the next local day, issues no
actuation and leaves `previous_bits` unchanged, instead of producing flags via
the documented fallbacks. -/
theorem c9_unbound_bright_abort (cfg : Config) (prev : Option Bits)
    (cache : Option SunData) (r : SunResults) (now stt : Int)
    (habs : r.sunrise = none ∨ r.sunset = none)
    (hpair : has_civil r = true ∨ has_nautical r = true ∨ has_astronomical r = true) :
    evaluate r now cfg.bright_offset stt false = Except.error EvalError.unboundLocal ∧
    runCycle cfg ⟨prev, cache, false⟩ true (.success ⟨"OK", r⟩) now stt =
      { state := ⟨prev, some ⟨"OK", r⟩, false⟩, actions := [],
        sleepDelta := stt + 5 } := by
  have heval : evaluate r now cfg.bright_offset stt false =
      Except.error EvalError.unboundLocal := by
    rw [evaluate_absent r now cfg.bright_offset stt false habs]
    simp
  refine ⟨heval, ?_⟩
  simp [runCycle, get_sun_data_or_cached, heval]

theorem c9_witness :
    evaluate ⟨none, some 100, some 10, some 90, none, none, none, none⟩ 50 60 5000
        false = Except.error EvalError.unboundLocal ∧
    runCycle ⟨-1, -1, -1, -1, -1, 60, -1⟩ ⟨none, none, false⟩ true
        (.success ⟨"OK", ⟨none, some 100, some 10, some 90, none, none, none, none⟩⟩)
        50 5000 =
      { state := ⟨none,
          some ⟨"OK", ⟨none, some 100, some 10, some 90, none, none, none, none⟩⟩,
          false⟩,
        actions := [], sleepDelta := 5005 } :=
  c9_unbound_bright_abort ⟨-1, -1, -1, -1, -1, 60, -1⟩ none none
    ⟨none, some 100, some 10, some 90, none, none, none, none⟩ 50 5000
    (Or.inl rfl) (Or.inl (by decide))

/-- C5 fails as stated: the evaluator has no integrity check.  On data whose
civil pair has begin (900) after end (200), the evaluation at `now = 500`
succeeds (returns no error at all, in particular no data-integrity failure),
and the scheduler cycle proceeds to actuate the configured bit rather than
treating the cycle like a fetch failure. -/
theorem c5_counterexample :
    evaluate ⟨some 100, some 1000, some 900, some 200, none, none, none, none⟩
        500 0 777 true =
      Except.ok ⟨⟨true, true, false, true, false⟩, 500, "day (bright)"⟩ ∧
    (runCycle ⟨-1, 5, -1, -1, -1, 0, -1⟩ ⟨none, none, false⟩ true
        (.success ⟨"OK",
          ⟨some 100, some 1000, some 900, some 200, none, none, none, none⟩⟩)
        500 777).actions =
      [ActuationCall.setBit 5 true] := ⟨rfl, rfl⟩

/-- C5 (amended): the evaluator performs no integrity check on boundary pairs.
Every failure mode (the unbound `bright_beg` of line 230, the
datetime-vs-`None` `TypeError` of lines 272/283/294) requires sunrise or
sunset to be absent; a present pair with begin ≥ end is never by itself an
error: its window test `begin < now < end` is simply always false, and with
sunrise and sunset present the cycle proceeds normally. -/
theorem c5_amended_no_integrity_check (r : SunResults) (now off stt : Int) (bb : Bool) :
    (∀ e, evaluate r now off stt bb = Except.error e →
      r.sunrise = none ∨ r.sunset = none) ∧
    (∀ sr ss out, r.sunrise = some sr → r.sunset = some ss → ss ≤ sr →
      evaluate r now off stt bb = Except.ok out → out.bits.day = false) ∧
    (∀ x y out, r.civil_twilight_begin = some x → r.civil_twilight_end = some y →
      y ≤ x → evaluate r now off stt bb = Except.ok out → out.bits.civil = false) ∧
    (∀ x y out, r.nautical_twilight_begin = some x → r.nautical_twilight_end = some y →
      y ≤ x → evaluate r now off stt bb = Except.ok out → out.bits.nautical = false) ∧
    (∀ x y out, r.astronomical_twilight_begin = some x →
      r.astronomical_twilight_end = some y →
      y ≤ x → evaluate r now off stt bb = Except.ok out →
      out.bits.astronomical = false) := by
  refine ⟨?_, ?_, ?_, ?_, ?_⟩
  · intro e he
    rcases hsr : r.sunrise with _ | sr
    · exact Or.inl rfl
    · rcases hss : r.sunset with _ | ss
      · exact Or.inr rfl
      · rw [evaluate_some r now off stt bb sr ss hsr hss] at he
        simp at he
  · intro sr ss out hsr hss hle he
    rw [evaluate_some r now off stt bb sr ss hsr hss] at he
    simp only [Except.ok.injEq] at he
    subst he
    have hsun : has_sun r = true := by simp [has_sun, hsr, hss]
    rw [analyse_nonpolar _ _ _ _ _ _ (by simp [hsun])]
    simp only []
    rw [pipeline_day_some r now _ _ _ sr ss hsr hss]
    simp only [decide_eq_false_iff_not]
    omega
  · intro x y out hx hy hle he
    rcases evaluate_ok_cases r now off stt bb out he with
      ⟨sr, ss, hsr, hss, rfl⟩ | ⟨habs, hbb, rfl⟩
    all_goals
      have hciv : has_civil r = true := by simp [has_civil, hx, hy]
      rw [analyse_nonpolar _ _ _ _ _ _ (by simp [hciv])]
      simp only []
      rw [pipeline_civil_some r now _ _ _ x y hx hy]
      simp only [decide_eq_false_iff_not]
      omega
  · intro x y out hx hy hle he
    rcases evaluate_ok_cases r now off stt bb out he with
      ⟨sr, ss, hsr, hss, rfl⟩ | ⟨habs, hbb, rfl⟩
    all_goals
      have hnau : has_nautical r = true := by simp [has_nautical, hx, hy]
      rw [analyse_nonpolar _ _ _ _ _ _ (by simp [hnau])]
      simp only []
      rw [pipeline_nautical_some r now _ _ _ x y hx hy]
      simp only [decide_eq_false_iff_not]
      omega
  · intro x y out hx hy hle he
    rcases evaluate_ok_cases r now off stt bb out he with
      ⟨sr, ss, hsr, hss, rfl⟩ | ⟨habs, hbb, rfl⟩
    all_goals
      have hast : has_astronomical r = true := by simp [has_astronomical, hx, hy]
      rw [analyse_nonpolar _ _ _ _ _ _ (by simp [hast])]
      simp only []
      rw [pipeline_astronomical_some r now _ _ _ x y hx hy]
      simp only [decide_eq_false_iff_not]
      omega

theorem c5_amended_witness :
    evaluate ⟨some 0, some 10000, some 5000, some 4000, none, none, none, none⟩
        2000 0 777 true =
      Except.ok ⟨⟨true, true, false, true, false⟩, 777, "day (bright)"⟩ ∧
    Bits.civil ⟨true, true, false, true, false⟩ = false :=
  ⟨rfl,
    (c5_amended_no_integrity_check
      ⟨some 0, some 10000, some 5000, some 4000, none, none, none, none⟩
      2000 0 777 true).2.2.1
      5000 4000 ⟨⟨true, true, false, true, false⟩, 777, "day (bright)"⟩
      rfl rfl (by omega) rfl⟩

theorem runCycle_ok (cfg : Config) (st : SchedState) (d : SunData) (now stt : Int)
    (out : EvalOut) (hok : d.status = "OK")
    (he : evaluate d.results now cfg.bright_offset stt st.brightBound =
      Except.ok out) :
    runCycle cfg st true (.success d) now stt =
      if st.previousBits = some out.bits then
        { state := { previousBits := st.previousBits, cache := some d,
                     brightBound := st.brightBound || has_sun d.results },
          actions := setBitActions cfg out.bits, sleepDelta := out.sleep + 5 }
      else
        { state := { previousBits := some out.bits, cache := some d,
                     brightBound := st.brightBound || has_sun d.results },
          actions := setBitActions cfg out.bits ++
            (if cfg.group_action = -1 then []
             else [ActuationCall.groupAction cfg.group_action]),
          sleepDelta := out.sleep + 5 } := by
  simp [runCycle, get_sun_data_or_cached, hok, he]

/-- C3 (amended): a cycle whose fetch fails with nothing cached, or whose
response has a non-OK status, sleeps until the next local midnight (plus the
5-second guard), leaves `previous_bits` unchanged and issues no actuation.
But a fetch failure with a previously cached response is handled by
`get_sun_data_or_cached` (lines 168-179) by returning the stale cached data,
and the cycle then behaves exactly as if that data had just been fetched -
including actuation (see the counterexample). -/
theorem c3_amended_fetch_failure (cfg : Config) (st : SchedState) (now stt : Int) :
    (st.cache = none →
      runCycle cfg st true .failure now stt =
        { state := { st with cache := none }, actions := [],
          sleepDelta := stt + 5 }) ∧
    (∀ d, st.cache = some d →
      runCycle cfg st true .failure now stt =
        runCycle cfg st true (.success d) now stt) ∧
    (∀ d, d.status ≠ "OK" →
      runCycle cfg st true (.success d) now stt =
        { state := { st with cache := some d }, actions := [],
          sleepDelta := stt + 5 }) := by
  refine ⟨?_, ?_, ?_⟩
  · intro hc
    simp [runCycle, get_sun_data_or_cached, hc]
  · intro d hc
    simp [runCycle, get_sun_data_or_cached, hc]
  · intro d hok
    simp [runCycle, get_sun_data_or_cached, hok]

/-- C3 fails as stated: with a cached OK response from an earlier cycle, a
fetch failure does not defer to the next day - the stale cached data is
returned by `get_sun_data_or_cached` and evaluated, actuation proceeds (two
`setBit` calls and the group action), `previous_bits` is updated, and the
sleep is the one computed from the stale data, not seconds-to-midnight. -/
theorem c3_counterexample :
    runCycle ⟨3, 5, -1, -1, -1, 60, 9⟩
      ⟨none, some ⟨"OK", ⟨some 10000, some 60000, some 9000, some 61000,
        some 8000, some 62000, some 7000, some 63000⟩⟩, false⟩
      true .failure 30000 40000 =
    { state := ⟨some ⟨true, true, true, true, true⟩,
        some ⟨"OK", ⟨some 10000, some 60000, some 9000, some 61000,
          some 8000, some 62000, some 7000, some 63000⟩⟩, true⟩,
      actions := [ActuationCall.setBit 3 true, ActuationCall.setBit 5 true,
        ActuationCall.groupAction 9],
      sleepDelta := 26405 } := rfl

theorem c3_amended_witness :
    runCycle ⟨-1, -1, -1, -1, -1, 60, -1⟩ ⟨none, none, false⟩ true .failure 0 100 =
      { state := ⟨none, none, false⟩, actions := [], sleepDelta := 105 } ∧
    runCycle ⟨-1, -1, -1, -1, -1, 60, -1⟩
        ⟨none, some ⟨"OK", ⟨none, none, none, none, none, none, none, none⟩⟩, false⟩
        true .failure 0 100 =
      runCycle ⟨-1, -1, -1, -1, -1, 60, -1⟩
        ⟨none, some ⟨"OK", ⟨none, none, none, none, none, none, none, none⟩⟩, false⟩
        true (.success ⟨"OK", ⟨none, none, none, none, none, none, none, none⟩⟩)
        0 100 ∧
    runCycle ⟨-1, -1, -1, -1, -1, 60, -1⟩ ⟨none, none, false⟩ true
        (.success ⟨"INVALID_REQUEST", ⟨none, none, none, none, none, none, none, none⟩⟩)
        0 100 =
      { state := ⟨none,
          some ⟨"INVALID_REQUEST", ⟨none, none, none, none, none, none, none, none⟩⟩,
          false⟩,
        actions := [], sleepDelta := 105 } :=
  ⟨(c3_amended_fetch_failure ⟨-1, -1, -1, -1, -1, 60, -1⟩ ⟨none, none, false⟩ 0 100).1
      rfl,
   (c3_amended_fetch_failure ⟨-1, -1, -1, -1, -1, 60, -1⟩
      ⟨none, some ⟨"OK", ⟨none, none, none, none, none, none, none, none⟩⟩, false⟩
      0 100).2.1 _ rfl,
   (c3_amended_fetch_failure ⟨-1, -1, -1, -1, -1, 60, -1⟩ ⟨none, none, false⟩ 0 100).2.2
      _ (by decide)⟩

/-- Recognizer for `setBit` actuations (basic actions 237/238, line 315). -/
def isSetBitAction : ActuationCall → Bool
  | ActuationCall.setBit _ _ => true
  | ActuationCall.groupAction _ => false

/-- Number of configured bits: those whose id is `> -1` (line 314). -/
def numConfiguredBits (cfg : Config) : Nat :=
  (if cfg.bright_bit > -1 then 1 else 0) + (if cfg.horizon_bit > -1 then 1 else 0) +
  (if cfg.civil_bit > -1 then 1 else 0) + (if cfg.nautical_bit > -1 then 1 else 0) +
  (if cfg.astronomical_bit > -1 then 1 else 0)

theorem setBitActions_all_set (cfg : Config) (bits : Bits) :
    ∀ a ∈ setBitActions cfg bits, isSetBitAction a = true := by
  intro a ha
  cases a with
  | setBit b v => rfl
  | groupAction g =>
    exfalso
    simp only [setBitActions] at ha
    split_ifs at ha <;> simp_all

theorem groupAction_not_mem_setBitActions (cfg : Config) (bits : Bits) (g : Int) :
    ActuationCall.groupAction g ∉ setBitActions cfg bits := by
  intro h
  have := setBitActions_all_set cfg bits _ h
  simp [isSetBitAction] at this

theorem setBitActions_length (cfg : Config) (bits : Bits) :
    (setBitActions cfg bits).length = numConfiguredBits cfg := by
  simp only [setBitActions, numConfiguredBits]
  split_ifs <;> simp

/-- C7: on a successful evaluation cycle, the `setBit` actuations issued are
exactly one per configured (`> -1`) bit - also when the flags are unchanged
from the previous cycle - while the group action is issued precisely when the
flag vector differs from `previous_bits` and an action is configured; and
`previous_bits` is updated exactly when the flag vector differs. -/
theorem c7_actuation_per_cycle (cfg : Config) (st : SchedState) (d : SunData)
    (now stt : Int) (out : EvalOut)
    (hok : d.status = "OK")
    (he : evaluate d.results now cfg.bright_offset stt st.brightBound =
      Except.ok out) :
    ((runCycle cfg st true (.success d) now stt).actions.filter isSetBitAction =
      setBitActions cfg out.bits) ∧
    (setBitActions cfg out.bits).length = numConfiguredBits cfg ∧
    (ActuationCall.groupAction cfg.group_action ∈
        (runCycle cfg st true (.success d) now stt).actions ↔
      (st.previousBits ≠ some out.bits ∧ cfg.group_action ≠ -1)) ∧
    (st.previousBits ≠ some out.bits →
      (runCycle cfg st true (.success d) now stt).state.previousBits =
        some out.bits) ∧
    (st.previousBits = some out.bits →
      (runCycle cfg st true (.success d) now stt).state.previousBits =
        st.previousBits) := by
  rw [runCycle_ok cfg st d now stt out hok he]
  by_cases hch : st.previousBits = some out.bits
  · rw [if_pos hch]
    refine ⟨List.filter_eq_self.mpr (setBitActions_all_set cfg out.bits),
      setBitActions_length cfg out.bits, ?_, ?_, ?_⟩
    · constructor
      · intro hmem
        exact absurd hmem (groupAction_not_mem_setBitActions _ _ _)
      · rintro ⟨h1, _⟩
        exact absurd hch h1
    · intro h
      exact absurd hch h
    · intro _
      rfl
  · rw [if_neg hch]
    refine ⟨?_, setBitActions_length cfg out.bits, ?_, ?_, ?_⟩
    · rw [List.filter_append,
        List.filter_eq_self.mpr (setBitActions_all_set cfg out.bits)]
      by_cases hg : cfg.group_action = -1
      · simp [hg]
      · simp [hg, isSetBitAction]
    · simp only [List.mem_append]
      constructor
      · intro h
        rcases h with h | h
        · exact absurd h (groupAction_not_mem_setBitActions _ _ _)
        · by_cases hg : cfg.group_action = -1
          · simp [hg] at h
          · exact ⟨hch, hg⟩
      · rintro ⟨_, hg⟩
        right
        simp [hg]
    · intro _
      rfl
    · intro h
      exact absurd h hch

theorem c7_witness :
    evaluate ⟨some 10000, some 60000, some 9000, some 61000, some 8000, some 62000,
        some 7000, some 63000⟩ 30000 60 40000 false =
      Except.ok ⟨⟨true, true, true, true, true⟩, 26400, "day (bright)"⟩ ∧
    ((runCycle ⟨3, 5, -1, -1, -1, 60, 9⟩ ⟨some ⟨true, true, true, true, true⟩,
        none, false⟩ true
        (.success ⟨"OK", ⟨some 10000, some 60000, some 9000, some 61000, some 8000,
          some 62000, some 7000, some 63000⟩⟩) 30000 40000).actions.filter
        isSetBitAction =
      setBitActions ⟨3, 5, -1, -1, -1, 60, 9⟩ ⟨true, true, true, true, true⟩) ∧
    (setBitActions ⟨3, 5, -1, -1, -1, 60, 9⟩ ⟨true, true, true, true, true⟩).length =
      numConfiguredBits ⟨3, 5, -1, -1, -1, 60, 9⟩ ∧
    (ActuationCall.groupAction 9 ∈
        (runCycle ⟨3, 5, -1, -1, -1, 60, 9⟩ ⟨some ⟨true, true, true, true, true⟩,
          none, false⟩ true
          (.success ⟨"OK", ⟨some 10000, some 60000, some 9000, some 61000, some 8000,
            some 62000, some 7000, some 63000⟩⟩) 30000 40000).actions ↔
      ((some ⟨true, true, true, true, true⟩ : Option Bits) ≠
          some ⟨true, true, true, true, true⟩ ∧ (9 : Int) ≠ -1)) ∧
    ((some ⟨true, true, true, true, true⟩ : Option Bits) ≠
        some ⟨true, true, true, true, true⟩ →
      (runCycle ⟨3, 5, -1, -1, -1, 60, 9⟩ ⟨some ⟨true, true, true, true, true⟩,
        none, false⟩ true
        (.success ⟨"OK", ⟨some 10000, some 60000, some 9000, some 61000, some 8000,
          some 62000, some 7000, some 63000⟩⟩) 30000 40000).state.previousBits =
        some ⟨true, true, true, true, true⟩) ∧
    ((some ⟨true, true, true, true, true⟩ : Option Bits) =
        some ⟨true, true, true, true, true⟩ →
      (runCycle ⟨3, 5, -1, -1, -1, 60, 9⟩ ⟨some ⟨true, true, true, true, true⟩,
        none, false⟩ true
        (.success ⟨"OK", ⟨some 10000, some 60000, some 9000, some 61000, some 8000,
          some 62000, some 7000, some 63000⟩⟩) 30000 40000).state.previousBits =
        some ⟨true, true, true, true, true⟩) :=
  ⟨rfl,
   c7_actuation_per_cycle ⟨3, 5, -1, -1, -1, 60, 9⟩
     ⟨some ⟨true, true, true, true, true⟩, none, false⟩
     ⟨"OK", ⟨some 10000, some 60000, some 9000, some 61000, some 8000, some 62000,
       some 7000, some 63000⟩⟩ 30000 40000
     ⟨⟨true, true, true, true, true⟩, 26400, "day (bright)"⟩ rfl rfl⟩

/-- The regex class `\d`: an ASCII decimal digit. -/
def isDigitChar (c : Char) : Bool := decide ('0' ≤ c) && decide (c ≤ '9')

/-- Characters removed by Python's `str.strip()` with no argument. -/
def isPySpace (c : Char) : Bool :=
  c = ' ' || c = '\t' || c = '\n' || c = '\r' || c = '\x0b' || c = '\x0c'

/-- Python `coordinates.strip()` (line 105): drop leading and trailing
whitespace. -/
def pyStrip (l : List Char) : List Char :=
  ((l.dropWhile isPySpace).reverse.dropWhile isPySpace).reverse

/-- Tail state of `re.match(r'^(\d+\.\d+);(\d+\.\d+)$', ...)` (line 106) after
the final dot: at least one digit, then end of string. -/
def reDigits (l : List Char) : Bool := !l.isEmpty && l.all isDigitChar

/-- After at least one digit of the second number's integer part: more digits,
then the dot, then `reDigits`. -/
def reNum2 : List Char → Bool
  | [] => false
  | c :: rest => if c = '.' then reDigits rest else isDigitChar c && reNum2 rest

/-- The second capture group `(\d+\.\d+)$`. -/
def reSecond : List Char → Bool
  | [] => false
  | c :: rest => isDigitChar c && reNum2 rest

/-- After at least one digit of the first number's fractional part: more
digits, then the `;` separator, then `reSecond`. -/
def reFrac1 : List Char → Bool
  | [] => false
  | c :: rest => if c = ';' then reSecond rest else isDigitChar c && reFrac1 rest

/-- After at least one digit of the first number's integer part: more digits,
then the dot, then one digit and `reFrac1`. -/
def reNum1 : List Char → Bool
  | [] => false
  | c :: rest =>
      if c = '.' then
        match rest with
        | [] => false
        | c2 :: rest2 => isDigitChar c2 && reFrac1 rest2
      else isDigitChar c && reNum1 rest

/-- Whether `re.match(r'^(\d+\.\d+);(\d+\.\d+)$', l)` succeeds (line 106),
as a deterministic matcher: the classes `\d`, `\.` and `;` are disjoint, so
maximal-munch scanning is equivalent to the regex. -/
def coordRegexMatch : List Char → Bool
  | [] => false
  | c :: rest => isDigitChar c && reNum1 rest

/-- Outcome of `_read_config`'s coordinate handling (lines 105-114): whether
`_enable_plugin` ran, and whether the `_translate_address` geocoding thread
was started instead. -/
structure ReadConfigOutcome where
  enabled : Bool
  geocodeThreadStarted : Bool
deriving DecidableEq, Repr

/-- Lines 105-114: strip the configured coordinates, match them against the
regex; on a match store them and enable the plugin, otherwise leave the plugin
disabled and start the geocoding fallback thread. -/
def read_config_coordinates (coordinates : List Char) : ReadConfigOutcome :=
  if coordRegexMatch (pyStrip coordinates) then ⟨true, false⟩ else ⟨false, true⟩

theorem isDigitChar_ne (c : Char) (h : isDigitChar c = true) :
    c ≠ '.' ∧ c ≠ ';' ∧ c ≠ '-' := by
  refine ⟨?_, ?_, ?_⟩ <;> rintro rfl <;> simp [isDigitChar] at h

theorem reDigits_chars (l : List Char) (h : reDigits l = true) :
    '-' ∉ l ∧ l.count '.' = 0 := by
  simp only [reDigits, Bool.and_eq_true, List.all_eq_true] at h
  constructor
  · intro hm
    have := h.2 _ hm
    exact absurd rfl (isDigitChar_ne _ this).2.2.symm
  · rw [List.count_eq_zero]
    intro hm
    have := h.2 _ hm
    exact absurd rfl (isDigitChar_ne _ this).1.symm

theorem reNum2_chars (l : List Char) (h : reNum2 l = true) :
    '-' ∉ l ∧ l.count '.' = 1 := by
  induction l with
  | nil => simp [reNum2] at h
  | cons c rest ih =>
    by_cases hc : c = '.'
    · subst hc
      rw [reNum2] at h
      simp only [if_pos rfl] at h
      obtain ⟨h1, h2⟩ := reDigits_chars rest h
      refine ⟨by simp [h1], ?_⟩
      simp [List.count_cons, h2]
    · rw [reNum2] at h
      simp only [if_neg hc, Bool.and_eq_true] at h
      obtain ⟨h1, h2⟩ := ih h.2
      obtain ⟨d1, d2, d3⟩ := isDigitChar_ne c h.1
      refine ⟨by simp [h1, Ne.symm d3], ?_⟩
      simp [List.count_cons, h2, d1]

theorem reSecond_chars (l : List Char) (h : reSecond l = true) :
    '-' ∉ l ∧ l.count '.' = 1 := by
  cases l with
  | nil => simp [reSecond] at h
  | cons c rest =>
    rw [reSecond] at h
    simp only [Bool.and_eq_true] at h
    obtain ⟨h1, h2⟩ := reNum2_chars rest h.2
    obtain ⟨d1, d2, d3⟩ := isDigitChar_ne c h.1
    refine ⟨by simp [h1, Ne.symm d3], ?_⟩
    simp [List.count_cons, h2, d1]

theorem reFrac1_chars (l : List Char) (h : reFrac1 l = true) :
    '-' ∉ l ∧ l.count '.' = 1 := by
  induction l with
  | nil => simp [reFrac1] at h
  | cons c rest ih =>
    by_cases hc : c = ';'
    · subst hc
      rw [reFrac1] at h
      simp only [if_pos rfl] at h
      obtain ⟨h1, h2⟩ := reSecond_chars rest h
      refine ⟨by simp [h1], ?_⟩
      simp [List.count_cons, h2]
    · rw [reFrac1] at h
      simp only [if_neg hc, Bool.and_eq_true] at h
      obtain ⟨h1, h2⟩ := ih h.2
      obtain ⟨d1, d2, d3⟩ := isDigitChar_ne c h.1
      refine ⟨by simp [h1, Ne.symm d3], ?_⟩
      simp [List.count_cons, h2, d1]

theorem reNum1_cons (c : Char) (rest : List Char) :
    reNum1 (c :: rest) =
      if c = '.' then
        (match rest with
         | [] => false
         | c2 :: rest2 => isDigitChar c2 && reFrac1 rest2)
      else isDigitChar c && reNum1 rest := rfl

theorem reNum1_chars (l : List Char) (h : reNum1 l = true) :
    '-' ∉ l ∧ l.count '.' = 2 := by
  induction l with
  | nil => simp [reNum1] at h
  | cons c rest ih =>
    by_cases hc : c = '.'
    · subst hc
      rw [reNum1_cons, if_pos rfl] at h
      cases rest with
      | nil => simp at h
      | cons c2 rest2 =>
        simp only [Bool.and_eq_true] at h
        obtain ⟨h1, h2⟩ := reFrac1_chars rest2 h.2
        obtain ⟨d1, d2, d3⟩ := isDigitChar_ne c2 h.1
        refine ⟨by simp [h1, Ne.symm d3], ?_⟩
        simp [List.count_cons, h2, d1]
    · rw [reNum1_cons] at h
      simp only [if_neg hc, Bool.and_eq_true] at h
      obtain ⟨h1, h2⟩ := ih h.2
      obtain ⟨d1, d2, d3⟩ := isDigitChar_ne c h.1
      refine ⟨by simp [h1, Ne.symm d3], ?_⟩
      simp [List.count_cons, h2, d1]

theorem coordRegexMatch_chars (l : List Char) (h : coordRegexMatch l = true) :
    '-' ∉ l ∧ l.count '.' = 2 := by
  cases l with
  | nil => simp [coordRegexMatch] at h
  | cons c rest =>
    rw [coordRegexMatch] at h
    simp only [Bool.and_eq_true] at h
    obtain ⟨h1, h2⟩ := reNum1_chars rest h.2
    obtain ⟨d1, d2, d3⟩ := isDigitChar_ne c h.1
    refine ⟨by simp [h1, Ne.symm d3], ?_⟩
    simp [List.count_cons, h2, d1]

/-- C10: the manual coordinates enable the plugin exactly when the stripped
string matches the anchored regex of line 106 (two dot-separated non-negative
decimal numbers joined by a semicolon); any string whose stripped form
contains a minus sign (southern or western hemisphere), or has fewer than two
dots (some component is an integer with no fractional part), leaves the plugin
disabled and starts the geocoding fallback on the location name instead. -/
theorem c10_coordinates_regex (l : List Char) :
    ((read_config_coordinates l).enabled = true ↔
      coordRegexMatch (pyStrip l) = true) ∧
    ('-' ∈ pyStrip l ∨ (pyStrip l).count '.' < 2 →
      read_config_coordinates l = ⟨false, true⟩) := by
  constructor
  · unfold read_config_coordinates
    by_cases hm : coordRegexMatch (pyStrip l) = true
    · simp [hm]
    · simp [hm]
  · intro hbad
    unfold read_config_coordinates
    rw [if_neg]
    intro hm
    obtain ⟨h1, h2⟩ := coordRegexMatch_chars _ hm
    rcases hbad with hb | hb
    · exact h1 hb
    · omega

theorem c10_witness :
    read_config_coordinates ("-51.05;3.72".toList) = ⟨false, true⟩ ∧
    read_config_coordinates ("51;4".toList) = ⟨false, true⟩ :=
  ⟨(c10_coordinates_regex ("-51.05;3.72".toList)).2 (Or.inl (by decide)),
   (c10_coordinates_regex ("51;4".toList)).2 (Or.inr (by decide))⟩

/-- The two edges contributed by a boundary pair when it is present. -/
def pairEdges (b e : Option Int) : List Int :=
  match b, e with
  | some x, some y => [x, y]
  | _, _ => []

theorem mem_pairEdges (v : Int) (b e : Option Int) :
    v ∈ pairEdges b e ↔ ∃ x y, b = some x ∧ e = some y ∧ (v = x ∨ v = y) := by
  rcases b with _ | x <;> rcases e with _ | y <;> simp [pairEdges]

/-- All boundary edges that the evaluation tracks for a day: the inward-shifted
bright window's edges when that window is non-empty and sunrise/sunset are
present, sunrise and sunset themselves, and the edges of each present twilight
pair. -/
def edges (r : SunResults) (off : Int) : List Int :=
  (match r.sunrise, r.sunset with
   | some sr, some ss =>
       (if sr + 60 * off < ss - 60 * off then
          [sr + 60 * off, ss - 60 * off] else []) ++ [sr, ss]
   | _, _ => []) ++
  pairEdges r.civil_twilight_begin r.civil_twilight_end ++
  pairEdges r.nautical_twilight_begin r.nautical_twilight_end ++
  pairEdges r.astronomical_twilight_begin r.astronomical_twilight_end

theorem twilight_case_bound (sleep now sr ss x y bv : Int) (pb fb : Bool)
    (hx : x ≤ sr) (hy : ss ≤ y) (hsrss : sr < ss)
    (hup : now < bv) (hid : bv = x ∨ bv = y)
    (hnsr : now < sr → bv ≤ sr) (hnss : now < ss → bv ≤ ss)
    (hne_sr : now ≠ sr) (hne_ss : now ≠ ss) :
    (stepTwilight sleep now (some sr) pb fb (some x) (some y)).2 ≤ bv - now ∨
    (sr < now ∧ now < ss ∧ ss ≤ bv) := by
  rcases hid with hid | hid
  · left
    have hzs : now < sr := by
      rcases lt_trichotomy now sr with h | h | h
      · exact h
      · exact absurd h hne_sr
      · omega
    have hb := stepTwilight_snd_le_beg sleep now sr pb fb x y (by omega) hzs
    omega
  · rcases lt_trichotomy now ss with hlt | heq | hgt
    · right
      have h1 := hnss hlt
      refine ⟨?_, hlt, by omega⟩
      rcases lt_trichotomy now sr with h2 | h2 | h2
      · exact absurd (hnsr h2) (by omega)
      · exact absurd h2 hne_sr
      · exact h2
    · exact absurd heq hne_ss
    · left
      have hb := stepTwilight_snd_le_end sleep now (some sr) pb fb x y (by omega)
        (by omega)
      omega

theorem pipeline_sleep_bound (r : SunResults) (now off sr ss bv : Int)
    (hsr : r.sunrise = some sr) (hss : r.sunset = some ss)
    (hsrss : sr < ss)
    (hnc : ∀ x y, r.civil_twilight_begin = some x → r.civil_twilight_end = some y →
      x ≤ sr ∧ ss ≤ y)
    (hnn : ∀ x y, r.nautical_twilight_begin = some x →
      r.nautical_twilight_end = some y → x ≤ sr ∧ ss ≤ y)
    (hna : ∀ x y, r.astronomical_twilight_begin = some x →
      r.astronomical_twilight_end = some y → x ≤ sr ∧ ss ≤ y)
    (hmem : bv ∈ edges r off) (hup : now < bv)
    (hnear : ∀ e ∈ edges r off, now < e → bv ≤ e)
    (hnot : now ∉ edges r off) :
    0 ≤ (pipeline r now (sr + 60 * off) (ss - 60 * off)
        (decide (sr + 60 * off < ss - 60 * off))).2 ∧
    (pipeline r now (sr + 60 * off) (ss - 60 * off)
        (decide (sr + 60 * off < ss - 60 * off))).2 ≤ bv - now := by
  have hmem_sr : sr ∈ edges r off := by simp [edges, hsr, hss]
  have hmem_ss : ss ∈ edges r off := by simp [edges, hsr, hss]
  have hne_sr : now ≠ sr := fun h => hnot (h ▸ hmem_sr)
  have hne_ss : now ≠ ss := fun h => hnot (h ▸ hmem_ss)
  simp only [pipeline]
  rw [hsr, hss]
  generalize hq0 : stepBright (24 * 60 * 60) now (sr + 60 * off) (ss - 60 * off)
    (decide (sr + 60 * off < ss - 60 * off)) = q0
  generalize hq1 : stepDay q0.2 now (some sr) (some ss) = q1
  generalize hq2 : stepTwilight q1.2 now (some sr) q1.1 (has_sun r)
    r.civil_twilight_begin r.civil_twilight_end = q2
  generalize hq3 : stepTwilight q2.2 now (some sr) q2.1 (has_sun r || has_civil r)
    r.nautical_twilight_begin r.nautical_twilight_end = q3
  generalize hq4 : stepTwilight q3.2 now (some sr) q3.1
    (has_sun r || has_civil r || has_nautical r)
    r.astronomical_twilight_begin r.astronomical_twilight_end = q4
  have le10 : q1.2 ≤ q0.2 := by
    rw [← hq1]; exact stepDay_snd_le _ _ _ _
  have le21 : q2.2 ≤ q1.2 := by
    rw [← hq2]; exact stepTwilight_snd_le _ _ _ _ _ _ _
  have le32 : q3.2 ≤ q2.2 := by
    rw [← hq3]; exact stepTwilight_snd_le _ _ _ _ _ _ _
  have le43 : q4.2 ≤ q3.2 := by
    rw [← hq4]; exact stepTwilight_snd_le _ _ _ _ _ _ _
  have n0 : 0 ≤ q0.2 := by
    rw [← hq0]; exact stepBright_snd_nonneg _ _ _ _ _ (by omega)
  have n1 : 0 ≤ q1.2 := by
    rw [← hq1]; exact stepDay_snd_nonneg _ _ _ _ n0
  have n2 : 0 ≤ q2.2 := by
    rw [← hq2]
    refine stepTwilight_snd_nonneg _ _ _ _ _ _ _ n1 ?_
    intro x y hxx hyy hlt hnf
    obtain ⟨ha1, ha2⟩ := hnc x y hxx hyy
    simp only [pyLtOpt, decide_eq_true_eq] at hlt
    omega
  have n3 : 0 ≤ q3.2 := by
    rw [← hq3]
    refine stepTwilight_snd_nonneg _ _ _ _ _ _ _ n2 ?_
    intro x y hxx hyy hlt hnf
    obtain ⟨ha1, ha2⟩ := hnn x y hxx hyy
    simp only [pyLtOpt, decide_eq_true_eq] at hlt
    omega
  have n4 : 0 ≤ q4.2 := by
    rw [← hq4]
    refine stepTwilight_snd_nonneg _ _ _ _ _ _ _ n3 ?_
    intro x y hxx hyy hlt hnf
    obtain ⟨ha1, ha2⟩ := hna x y hxx hyy
    simp only [pyLtOpt, decide_eq_true_eq] at hlt
    omega
  refine ⟨n4, ?_⟩
  unfold edges at hmem
  rw [hsr, hss] at hmem
  simp only [List.mem_append, List.mem_cons, List.mem_singleton,
    List.not_mem_nil, or_false, mem_pairEdges] at hmem
  rcases hmem with (((hcase | hcase) | hcase) | hcase) | hcase
  · -- bv is a bright-window edge
    by_cases hhb : sr + 60 * off < ss - 60 * off
    · rw [if_pos hhb] at hcase
      have hdec : decide (sr + 60 * off < ss - 60 * off) = true := by
        simp [hhb]
      rw [hdec] at hq0
      have hmem_bb : sr + 60 * off ∈ edges r off := by
        simp [edges, hsr, hss, hhb]
      have hne_bb : now ≠ sr + 60 * off := fun h => hnot (h ▸ hmem_bb)
      simp only [List.mem_cons, List.mem_singleton, List.not_mem_nil, or_false]
        at hcase
      rcases hcase with hcase | hcase
      · -- bv = bright begin
        have hb0 : q0.2 ≤ (sr + 60 * off) - now := by
          rw [← hq0]
          exact stepBright_snd_le_beg _ _ _ _ (by omega)
        omega
      · -- bv = bright end
        have hlt_bb : sr + 60 * off < now := by
          rcases lt_trichotomy now (sr + 60 * off) with h | h | h
          · exact absurd (hnear _ hmem_bb h) (by omega)
          · exact absurd h hne_bb
          · exact h
        have hb0 : q0.2 ≤ (ss - 60 * off) - now := by
          rw [← hq0]
          exact stepBright_snd_le_end _ _ _ _ hlt_bb (by omega)
        omega
    · rw [if_neg hhb] at hcase
      simp at hcase
  · -- bv = sunrise or bv = sunset
    rcases hcase with hcase | hcase
    · have hb1 : q1.2 ≤ sr - now := by
        rw [← hq1]
        exact stepDay_snd_le_beg _ _ _ _ (by omega)
      omega
    · have hlt_sr : sr < now := by
        rcases lt_trichotomy now sr with h | h | h
        · exact absurd (hnear _ hmem_sr h) (by omega)
        · exact absurd h hne_sr
        · exact h
      have hb1 : q1.2 ≤ ss - now := by
        rw [← hq1]
        exact stepDay_snd_le_end _ _ _ _ hlt_sr (by omega)
      omega
  · -- bv is a civil edge
    obtain ⟨x, y, hx, hy, hid⟩ := hcase
    obtain ⟨ha1, ha2⟩ := hnc x y hx hy
    rw [hx, hy] at hq2
    rcases twilight_case_bound q1.2 now sr ss x y bv q1.1 (has_sun r)
        ha1 ha2 hsrss hup hid (fun h => hnear sr hmem_sr h)
        (fun h => hnear ss hmem_ss h) hne_sr hne_ss with hbd | ⟨hd1, hd2, hd3⟩
    · rw [hq2] at hbd
      omega
    · have hb1 : q1.2 ≤ ss - now := by
        rw [← hq1]
        exact stepDay_snd_le_end _ _ _ _ hd1 hd2
      omega
  · -- bv is a nautical edge
    obtain ⟨x, y, hx, hy, hid⟩ := hcase
    obtain ⟨ha1, ha2⟩ := hnn x y hx hy
    rw [hx, hy] at hq3
    rcases twilight_case_bound q2.2 now sr ss x y bv q2.1 (has_sun r || has_civil r)
        ha1 ha2 hsrss hup hid (fun h => hnear sr hmem_sr h)
        (fun h => hnear ss hmem_ss h) hne_sr hne_ss with hbd | ⟨hd1, hd2, hd3⟩
    · rw [hq3] at hbd
      omega
    · have hb1 : q1.2 ≤ ss - now := by
        rw [← hq1]
        exact stepDay_snd_le_end _ _ _ _ hd1 hd2
      omega
  · -- bv is an astronomical edge
    obtain ⟨x, y, hx, hy, hid⟩ := hcase
    obtain ⟨ha1, ha2⟩ := hna x y hx hy
    rw [hx, hy] at hq4
    rcases twilight_case_bound q3.2 now sr ss x y bv q3.1
        (has_sun r || has_civil r || has_nautical r)
        ha1 ha2 hsrss hup hid (fun h => hnear sr hmem_sr h)
        (fun h => hnear ss hmem_ss h) hne_sr hne_ss with hbd | ⟨hd1, hd2, hd3⟩
    · rw [hq4] at hbd
      omega
    · have hb1 : q1.2 ≤ ss - now := by
        rw [← hq1]
        exact stepDay_snd_le_end _ _ _ _ hd1 hd2
      omega

/-- C8 (amended): the nearest-upcoming-edge bound on the sleep does hold when
sunrise and sunset are present, every present twilight window contains the
daylight window (`begin ≤ sunrise` and `sunset ≤ end`), `sunrise < sunset`,
the seconds-to-midnight floor is positive, and `now` does not lie exactly on a
tracked edge: then for the nearest upcoming tracked edge `bv > now`, the
sleep-until-wake delta `sleep + 5` is strictly positive and at most
`(bv - now) + 5`.  At an instant exactly on an edge the bound can fail (see
the counterexample), and without sunrise/sunset a cycle that reaches a false
window test aborts with the line-272 `TypeError` and sleeps until the next
local day regardless of nearby edges. -/
theorem c8_amended_wake_bound (r : SunResults) (now off stt sr ss bv : Int)
    (bb : Bool)
    (hsr : r.sunrise = some sr) (hss : r.sunset = some ss)
    (hsrss : sr < ss) (hstt : 0 < stt)
    (hnc : ∀ x y, r.civil_twilight_begin = some x → r.civil_twilight_end = some y →
      x ≤ sr ∧ ss ≤ y)
    (hnn : ∀ x y, r.nautical_twilight_begin = some x →
      r.nautical_twilight_end = some y → x ≤ sr ∧ ss ≤ y)
    (hna : ∀ x y, r.astronomical_twilight_begin = some x →
      r.astronomical_twilight_end = some y → x ≤ sr ∧ ss ≤ y)
    (hmem : bv ∈ edges r off) (hup : now < bv)
    (hnear : ∀ e ∈ edges r off, now < e → bv ≤ e)
    (hnot : now ∉ edges r off)
    (out : EvalOut) (he : evaluate r now off stt bb = Except.ok out) :
    0 < out.sleep + 5 ∧ out.sleep + 5 ≤ (bv - now) + 5 := by
  rw [evaluate_some r now off stt bb sr ss hsr hss] at he
  simp only [Except.ok.injEq] at he
  subst he
  have hsun : has_sun r = true := by simp [has_sun, hsr, hss]
  rw [analyse_nonpolar _ _ _ _ _ _ (by simp [hsun])]
  simp only []
  obtain ⟨hp1, hp2⟩ := pipeline_sleep_bound r now off sr ss bv hsr hss hsrss
    hnc hnn hna hmem hup hnear hnot
  constructor
  · omega
  · omega

/-- C8 fails as stated: at an instant lying exactly on a boundary (here
`now = bright_beg = 10600`), the strict window test leaves the bright flag
false while `now < bright_beg` also fails (lines 250-254), so the nearest
upcoming edge - `bright_end = 59400` - is never tracked: the computed delta
is `(sunset - now) + 5 = 49405`, exceeding `(59400 - 10600) + 5 = 48805`.
(A second failure mode, with sunrise/sunset absent and a present pair whose
window test is false, makes the evaluation abort with the line-272
`TypeError` and sleep until the next local day regardless of any nearby
edge.) -/
theorem c8_counterexample :
    ((59400 : Int) ∈ edges ⟨some 10000, some 60000, some 9000, some 61000,
      some 8000, some 62000, some 7000, some 63000⟩ 10) ∧
    ((10600 : Int) < 59400) ∧
    (∀ e ∈ edges ⟨some 10000, some 60000, some 9000, some 61000, some 8000,
        some 62000, some 7000, some 63000⟩ 10,
      (10600 : Int) < e → (59400 : Int) ≤ e) ∧
    evaluate ⟨some 10000, some 60000, some 9000, some 61000, some 8000, some 62000,
        some 7000, some 63000⟩ 10600 10 50000 true =
      Except.ok ⟨⟨false, true, true, true, true⟩, 49400, "day"⟩ ∧
    ¬ ((49400 : Int) + 5 ≤ (59400 - 10600) + 5) := by
  refine ⟨by decide, by decide, by decide, rfl, by decide⟩

theorem c8_amended_witness :
    evaluate ⟨some 10000, some 60000, some 9000, some 61000, some 8000, some 62000,
        some 7000, some 63000⟩ 5000 10 50000 true =
      Except.ok ⟨⟨false, false, false, false, false⟩, 2000, "night"⟩ ∧
    ((7000 : Int) ∈ edges ⟨some 10000, some 60000, some 9000, some 61000, some 8000,
      some 62000, some 7000, some 63000⟩ 10) ∧
    (0 : Int) < 2000 + 5 ∧ (2000 : Int) + 5 ≤ (7000 - 5000) + 5 := by
  refine ⟨rfl, by decide, ?_, ?_⟩
  · exact (c8_amended_wake_bound
      ⟨some 10000, some 60000, some 9000, some 61000, some 8000, some 62000,
        some 7000, some 63000⟩ 5000 10 50000 10000 60000 7000 true rfl rfl
      (by omega) (by omega)
      (fun x y h1 h2 => by
        simp only [Option.some.injEq] at h1 h2
        omega)
      (fun x y h1 h2 => by
        simp only [Option.some.injEq] at h1 h2
        omega)
      (fun x y h1 h2 => by
        simp only [Option.some.injEq] at h1 h2
        omega)
      (by decide) (by omega) (by decide) (by decide)
      ⟨⟨false, false, false, false, false⟩, 2000, "night"⟩ rfl).1
  · exact (c8_amended_wake_bound
      ⟨some 10000, some 60000, some 9000, some 61000, some 8000, some 62000,
        some 7000, some 63000⟩ 5000 10 50000 10000 60000 7000 true rfl rfl
      (by omega) (by omega)
      (fun x y h1 h2 => by
        simp only [Option.some.injEq] at h1 h2
        omega)
      (fun x y h1 h2 => by
        simp only [Option.some.injEq] at h1 h2
        omega)
      (fun x y h1 h2 => by
        simp only [Option.some.injEq] at h1 h2
        omega)
      (by decide) (by omega) (by decide) (by decide)
      ⟨⟨false, false, false, false, false⟩, 2000, "night"⟩ rfl).2
